import Mathlib

/-!
Shallow embedding of the `btle` crate's HCI/BLE primitive layer
(`src/lib.rs`, `src/hci/socket.rs`, `src/le/advertiser.rs`) and proofs of
the specified properties. Machine integers (`u8`, `u16`, `u32`) are
modelled as `Nat` with explicit `% 2^w` where overflow matters; byte
buffers as `List Nat`; fallible Rust functions return `Except`/`Option`;
a Rust `panic!`/failed `assert!` is modelled as `Option.none`.
-/

namespace Btle

/-- `PackError` from `src/lib.rs`: byte packing/unpacking error. -/
inductive PackError where
  | BadOpcode : PackError
  | BadLength (expected got : Nat) : PackError
  | BadBytes (index : Option Nat) : PackError
  | InvalidFields : PackError
deriving DecidableEq, Repr

/-- `PackError::expect_length` from `src/lib.rs`: `Ok(())` iff
`buf.len() == expected`, else `BadLength`. -/
def PackError.expect_length (expected : Nat) (buf : List Nat) :
    Except PackError Unit :=
  if buf.length = expected then Except.ok ()
  else Except.error (PackError.BadLength expected buf.length)

/-- `PackError.atleast_length` from `src/lib.rs`. NOTE: the Rust body tests
`buf.len() == expected`, exactly like `expect_length`, even though its doc
comment promises a `buf.len() >= expected` check; the embedding follows the
body. -/
def PackError.atleast_length (expected : Nat) (buf : List Nat) :
    Except PackError Unit :=
  if buf.length = expected then Except.ok ()
  else Except.error (PackError.BadLength expected buf.length)

/-- `ConversionError` from `src/lib.rs` (payload-free failure marker). -/
structure ConversionError where
deriving DecidableEq, Repr

/-- `AddressType` from `src/lib.rs`. -/
inductive AddressType where
  | NonResolvablePrivate : AddressType
  | ResolvablePrivateAddress : AddressType
  | RFU : AddressType
  | StaticDevice : AddressType
deriving DecidableEq, Repr

/-- `BTAddress` from `src/lib.rs`: 6-byte Bluetooth address (`[u8; 6]`),
embedded as a list of byte values. -/
structure BTAddress where
  bytes : List Nat
deriving DecidableEq, Repr

/-- `BTAddress::new` from `src/lib.rs`: asserts the slice is exactly 6
bytes (panic modelled as `none`). -/
def BTAddress.new (bytes : List Nat) : Option BTAddress :=
  if bytes.length = 6 then some ⟨bytes⟩ else none

/-- `BTAddress::unpack_from` from `src/lib.rs`: checks the length with
`expect_length` then builds the address. -/
def BTAddress.unpack_from (bytes : List Nat) : Except PackError BTAddress :=
  match PackError.expect_length 6 bytes with
  | Except.error e => Except.error e
  | Except.ok _ => Except.ok ⟨bytes⟩

/-- `BTAddress::pack_into` from `src/lib.rs`: checks the destination length
with `expect_length` then copies the 6 address bytes over the buffer; the
resulting buffer contents are returned. -/
def BTAddress.pack_into (a : BTAddress) (bytes : List Nat) :
    Except PackError (List Nat) :=
  match PackError.expect_length 6 bytes with
  | Except.error e => Except.error e
  | Except.ok _ => Except.ok a.bytes

/-- `BTAddress::address_type` from `src/lib.rs`: derives the address type
from `(self.0[5] & 0xC0) >> 6`. -/
def BTAddress.address_type (a : BTAddress) : AddressType :=
  let address_type_bits := (Nat.land (a.bytes.getD 5 0) 0xC0) >>> 6
  match address_type_bits with
  | 0 => AddressType.NonResolvablePrivate
  | 1 => AddressType.ResolvablePrivateAddress
  | 3 => AddressType.StaticDevice
  | _ => AddressType.RFU

/-- `u32::from_le_bytes` on four byte values. -/
def u32_from_le_bytes (b0 b1 b2 b3 : Nat) : Nat :=
  b0 + 256 * b1 + 65536 * b2 + 16777216 * b3

/-- `BTAddress::private_address_parts` from `src/lib.rs`: `hash` from the
low three bytes and `prand` from the high three bytes, only for resolvable
private addresses. -/
def BTAddress.private_address_parts (a : BTAddress) : Option (Nat × Nat) :=
  match a.address_type with
  | AddressType.ResolvablePrivateAddress =>
    some
      (u32_from_le_bytes (a.bytes.getD 0 0) (a.bytes.getD 1 0)
        (a.bytes.getD 2 0) 0,
       u32_from_le_bytes (a.bytes.getD 3 0) (a.bytes.getD 4 0)
        (a.bytes.getD 5 0) 0)
  | _ => none

/-- Modelled from the spec: the generic fixed-width-integer-to-bytes
conversion contract (`ToFromBytesEndian` in `src/bytes.rs`, not under
`src/`) instantiated at `u16`, little-endian direction: encoding yields
exactly the 2-byte little-endian form. -/
def u16_to_bytes_le (v : Nat) : List Nat :=
  [v % 256, v / 256 % 256]

/-- Modelled from the spec: the `u16` little-endian decoder of
`src/bytes.rs` (not under `src/`); per the spec every decode path
validates the declared length, so it succeeds exactly on 2-byte input. -/
def u16_from_bytes_le (bytes : List Nat) : Option Nat :=
  match bytes with
  | [b0, b1] => some (b0 + 256 * b1)
  | _ => none

/-- `CompanyID` from `src/lib.rs`: 16-bit Bluetooth company identifier. -/
structure CompanyID where
  id : Nat
deriving DecidableEq, Repr

/-- `ToFromBytesEndian::to_bytes_le` for `CompanyID` from `src/lib.rs`:
delegates to the `u16` encoder. -/
def CompanyID.to_bytes_le (c : CompanyID) : List Nat :=
  u16_to_bytes_le c.id

/-- `ToFromBytesEndian::from_bytes_le` for `CompanyID` from `src/lib.rs`:
delegates to the `u16` decoder and wraps the result. -/
def CompanyID.from_bytes_le (bytes : List Nat) : Option CompanyID :=
  match u16_from_bytes_le bytes with
  | some v => some ⟨v⟩
  | none => none

/-! ## `src/hci/socket.rs` -/

/-- `HCIChannel` from `src/hci/socket.rs`: BlueZ HCI channel selector. -/
inductive HCIChannel where
  | Raw : HCIChannel
  | User : HCIChannel
  | Monitor : HCIChannel
  | Control : HCIChannel
  | Logging : HCIChannel
deriving DecidableEq, Repr

/-- `From<HCIChannel> for u16` from `src/hci/socket.rs` (the `#[repr(u16)]`
discriminants `Raw=0, User=1, Monitor=2, Control=3, Logging=4`). -/
def HCIChannel.toU16 : HCIChannel → Nat
  | HCIChannel.Raw => 0
  | HCIChannel.User => 1
  | HCIChannel.Monitor => 2
  | HCIChannel.Control => 3
  | HCIChannel.Logging => 4

/-- `libc::AF_BLUETOOTH` (Linux Bluetooth protocol family constant). -/
def AF_BLUETOOTH : Nat := 31

/-- `SockaddrHCI` from `src/hci/socket.rs`. -/
structure SockaddrHCI where
  hci_family : Nat
  hci_dev : Nat
  hci_channel : Nat
deriving DecidableEq, Repr

/-- The `SockaddrHCI` value that `HCISocket::new_channel` in
`src/hci/socket.rs` constructs and passes to `bind`: the Rust body sets
`hci_dev: adapter_id.0` but `hci_channel: HCIChannel::User.into()`,
ignoring the `channel` argument. -/
def new_channel_bind_addr (adapter_id : Nat) (_channel : HCIChannel) :
    SockaddrHCI :=
  { hci_family := AF_BLUETOOTH
    hci_dev := adapter_id
    hci_channel := HCIChannel.User.toU16 }

/-- `HCISocketError` from `src/hci/socket.rs` (`IO` variant elided: its
payload is an opaque OS error object irrelevant to the claims). -/
inductive HCISocketError where
  | PermissionDenied : HCISocketError
  | DeviceNotFound : HCISocketError
  | NotConnected : HCISocketError
  | Busy : HCISocketError
  | Other (errno : Int) : HCISocketError
deriving DecidableEq, Repr

/-- `handle_libc_error` from `src/hci/socket.rs`: classifies a raw OS call
result; the ambient `errno` is passed explicitly. -/
def handle_libc_error (i : Int) (errno : Int) : Except HCISocketError Int :=
  if i < 0 then
    Except.error
      (match errno with
       | 1 => HCISocketError.PermissionDenied
       | 16 => HCISocketError.Busy
       | e => HCISocketError.Other e)
  else Except.ok i

/-- Modelled from the spec: the numeric tag of `PacketType::Command`
(`src/hci/stream.rs`, not under `src/`); the spec gives Command=1. -/
def packetTypeCommandTag : Nat := 1

/-- Modelled from the spec: the numeric tag of `PacketType::Event`
(`src/hci/stream.rs`, not under `src/`); the spec gives Event=4. -/
def packetTypeEventTag : Nat := 4

/-- Modelled from the spec: the numeric code of
`EventCode::CommandComplete` (`src/hci/mod.rs`, not under `src/`); the
spec gives CommandComplete=0. -/
def eventCodeCommandCompleteTag : Nat := 0

/-- Modelled from the spec: the numeric code of `EventCode::CommandStatus`
(`src/hci/mod.rs`, not under `src/`); the spec gives CommandStatus=2. -/
def eventCodeCommandStatusTag : Nat := 2

/-- Modelled from the spec: the `u32` little-endian encoder of
`src/bytes.rs` (not under `src/`): exactly the 4-byte little-endian
form. -/
def u32_to_bytes_le (v : Nat) : List Nat :=
  [v % 256, v / 256 % 256, v / 65536 % 256, v / 16777216 % 256]

/-- The 14-byte HCI event filter constructed by `HCISocket::set_filter` in
`src/hci/socket.rs`: a zeroed 14-byte array whose bytes 0..4 receive the
little-endian packet-type mask and whose bytes 4..8 receive the
little-endian event-code mask. -/
def set_filter_bytes : List Nat :=
  let type_mask := (1 <<< packetTypeCommandTag) ||| (1 <<< packetTypeEventTag)
  let event_mask1 :=
    (1 <<< eventCodeCommandCompleteTag) ||| (1 <<< eventCodeCommandStatusTag)
  u32_to_bytes_le type_mask ++ u32_to_bytes_le event_mask1 ++
    List.replicate 6 0

/-! ## `src/le/advertiser.rs` -/

/-- `AdvertisingInterval` from `src/le/advertiser.rs`: a `u16` in units of
0.625 ms. -/
structure AdvertisingInterval where
  val : Nat
deriving DecidableEq, Repr

/-- `AdvertisingInterval::MIN_U16` from `src/le/advertiser.rs`. -/
def AdvertisingInterval.MIN_U16 : Nat := 0x0020

/-- `AdvertisingInterval::MAX_U16` from `src/le/advertiser.rs`. -/
def AdvertisingInterval.MAX_U16 : Nat := 0x4000

/-- `AdvertisingInterval::DEFAULT_U16` from `src/le/advertiser.rs`. -/
def AdvertisingInterval.DEFAULT_U16 : Nat := 0x0800

/-- `AdvertisingInterval::DEFAULT` from `src/le/advertiser.rs`. -/
def AdvertisingInterval.DEFAULT : AdvertisingInterval :=
  ⟨AdvertisingInterval.DEFAULT_U16⟩

/-- `TryFrom<u16> for AdvertisingInterval` from `src/le/advertiser.rs`:
`Ok(Self(value))` iff `value <= MAX_U16 && value >= MIN_U16`, else
`ConversionError`. -/
def AdvertisingInterval.try_from (value : Nat) : Option AdvertisingInterval :=
  if value ≤ AdvertisingInterval.MAX_U16 ∧ AdvertisingInterval.MIN_U16 ≤ value
  then some ⟨value⟩
  else none

/-- `AdvertisingInterval::from_milliseconds` from `src/le/advertiser.rs`:
`(milli * 16 / 10).try_into().ok()`, where `milli * 16` is `u16`
multiplication (wrapping modulo 2^16). -/
def AdvertisingInterval.from_milliseconds (milli : Nat) :
    Option AdvertisingInterval :=
  AdvertisingInterval.try_from (milli * 16 % 65536 / 10)

/-- `TryFrom<Duration> for AdvertisingInterval` from `src/le/advertiser.rs`,
on the duration's whole-millisecond count (`as_millis`, a `u128`): the
`u128 → u16` conversion fails above 0xFFFF, then `from_milliseconds`. -/
def AdvertisingInterval.try_from_duration_millis (millis : Nat) :
    Option AdvertisingInterval :=
  if millis ≤ 65535 then AdvertisingInterval.from_milliseconds millis
  else none

/-- `ChannelMap` from `src/le/advertiser.rs`: 3-bit advertising channel
bitmask. -/
structure ChannelMap where
  map : Nat
deriving DecidableEq, Repr

/-- `ChannelMap::ALL_U8` from `src/le/advertiser.rs`. -/
def ChannelMap.ALL_U8 : Nat := 0x07

/-- `ChannelMap::new` from `src/le/advertiser.rs`: the Rust body runs
`assert!(map > Self::ALL_U8, ...)` and then returns `ChannelMap(map)`;
the failed assertion (panic) is modelled as `none`. NOTE: its doc comment
says it panics if `map > ALL`, but the assert condition in the body is
the opposite. -/
def ChannelMap.new (map : Nat) : Option ChannelMap :=
  if map > ChannelMap.ALL_U8 then some ⟨map⟩ else none

/-! ## `FromStr for BTAddress` (`src/lib.rs`) -/

/-- The value of a hexadecimal digit character, as recognised by Rust's
`char::to_digit(16)`. -/
def hexDigitVal (c : Char) : Option Nat :=
  if '0' ≤ c ∧ c ≤ '9' then some (c.toNat - 48)
  else if 'a' ≤ c ∧ c ≤ 'f' then some (c.toNat - 97 + 10)
  else if 'A' ≤ c ∧ c ≤ 'F' then some (c.toNat - 65 + 10)
  else none

/-- Digit loop of `u8::from_str_radix(_, 16)` for a non-negative number:
each step is a checked multiply by 16 and checked add, failing on a
non-digit or on overflow past 255. -/
def u8HexDigitsLoop : List Char → Nat → Option Nat
  | [], acc => some acc
  | c :: rest, acc =>
    match hexDigitVal c with
    | none => none
    | some d =>
      if acc * 16 + d ≤ 255 then u8HexDigitsLoop rest (acc * 16 + d)
      else none

/-- Digit loop of `u8::from_str_radix(_, 16)` after a leading `-` sign:
each step is a checked multiply and checked subtract from zero, so only
strings of `0` digits succeed (with value 0). -/
def u8HexDigitsNegLoop : List Char → Option Nat
  | [] => some 0
  | c :: rest =>
    match hexDigitVal c with
    | none => none
    | some 0 => u8HexDigitsNegLoop rest
    | some _ => none

/-- `u8::from_str_radix(s, 16)`: optional sign, then at least one hex
digit, overflow-checked against the `u8` range. -/
def u8FromStrRadix16 (s : List Char) : Option Nat :=
  match s with
  | [] => none
  | c :: rest =>
    if c = '+' then
      match rest with
      | [] => none
      | _ => u8HexDigitsLoop rest 0
    else if c = '-' then
      match rest with
      | [] => none
      | _ => u8HexDigitsNegLoop rest
    else u8HexDigitsLoop s 0

/-- Rust `str::split` with a character predicate: splits at every
delimiter, keeping empty pieces (so the empty string yields one empty
piece). -/
def splitByPred (p : Char → Bool) : List Char → List Char →
    List (List Char)
  | [], acc => [acc.reverse]
  | c :: rest, acc =>
    if p c then acc.reverse :: splitByPred p rest []
    else splitByPred p rest (c :: acc)

/-- The delimiter predicate of `FromStr for BTAddress` in `src/lib.rs`:
`|c| c == ':' || c == '-'`. -/
def btAddrDelim (c : Char) : Bool :=
  c = ':' || c = '-'

/-- The accumulation loop of `FromStr for BTAddress` in `src/lib.rs`:
walks the split pieces, rejecting once a seventh octet appears, parsing
each octet with `u8::from_str_radix(_, 16)`; afterwards exactly 6 octets
must have been written. -/
def btAddrFromStrLoop : List (List Char) → List Nat → Option (List Nat)
  | [], out => if out.length = 6 then some out else none
  | piece :: rest, out =>
    if out.length = 6 then none
    else
      match u8FromStrRadix16 piece with
      | none => none
      | some b => btAddrFromStrLoop rest (out ++ [b])

/-- `FromStr for BTAddress` from `src/lib.rs` on the string's character
list. -/
def BTAddress.from_str (s : List Char) : Option BTAddress :=
  match btAddrFromStrLoop (splitByPred btAddrDelim s []) [] with
  | some out => some ⟨out⟩
  | none => none

/-! ## Theorems -/

/-- C1: the claim says the `SockaddrHCI` passed to `bind` by
`HCISocket::new_channel` carries the given channel selector's numeric
value in `hci_channel`; evaluating the code at `adapter_id = 5`,
`channel = Raw` shows `hci_dev` does embed the adapter index but
`hci_channel` is the numeric value of `User` (1), not of the given
channel `Raw` (0): the `channel` argument is ignored. -/
theorem new_channel_addr_ignores_channel :
    (new_channel_bind_addr 5 HCIChannel.Raw).hci_dev = 5 ∧
    (new_channel_bind_addr 5 HCIChannel.Raw).hci_channel =
      HCIChannel.User.toU16 ∧
    HCIChannel.Raw.toU16 = 0 ∧
    (new_channel_bind_addr 5 HCIChannel.Raw).hci_channel ≠
      HCIChannel.Raw.toU16 := by
  refine ⟨rfl, rfl, rfl, ?_⟩
  decide

/-- C2: the claim (and the Rust doc comment) says `ChannelMap::new(map)`
succeeds for `map <= 0x07` and panics for `map > 0x07`; the body's
`assert!(map > Self::ALL_U8, ..)` is inverted, so the code panics on the
in-domain `map = 0x07` (and on `0`) and succeeds on the out-of-domain
`map = 0x08`. -/
theorem channel_map_new_assert_inverted :
    ChannelMap.new 0x07 = none ∧
    ChannelMap.new 0 = none ∧
    ChannelMap.new 0x08 = some ⟨0x08⟩ ∧
    0x07 ≤ ChannelMap.ALL_U8 := by
  refine ⟨rfl, rfl, rfl, ?_⟩
  decide

/-- C3: the claim (and the Rust doc comment) says
`PackError::atleast_length(n, buf)` returns `Ok(())` whenever
`buf.len() >= n`; the body tests equality, so on `n = 2` and a 3-byte
buffer (which satisfies `buf.len() >= n`) the code returns
`BadLength { expected: 2, got: 3 }`. -/
theorem atleast_length_rejects_trailing_data :
    PackError.atleast_length 2 [0, 0, 0] =
      Except.error (PackError.BadLength 2 3) ∧
    2 ≤ [0, 0, 0].length := by
  refine ⟨rfl, ?_⟩
  decide

/-- C4: `handle_libc_error(i)` with `i < 0` yields `PermissionDenied` when
`errno = 1`, `Busy` when `errno = 16`, and `Other(errno)` for any other
errno; any `i >= 0` passes through as `Ok(i)` unchanged. -/
theorem handle_libc_error_classification (i errno : Int) :
    (i < 0 → errno = 1 →
      handle_libc_error i errno =
        Except.error HCISocketError.PermissionDenied) ∧
    (i < 0 → errno = 16 →
      handle_libc_error i errno = Except.error HCISocketError.Busy) ∧
    (i < 0 → errno ≠ 1 → errno ≠ 16 →
      handle_libc_error i errno =
        Except.error (HCISocketError.Other errno)) ∧
    (0 ≤ i → handle_libc_error i errno = Except.ok i) := by
  refine ⟨?_, ?_, ?_, ?_⟩
  · intro hi he
    subst he
    simp [handle_libc_error, hi]
  · intro hi he
    subst he
    simp [handle_libc_error, hi]
  · intro hi h1 h16
    unfold handle_libc_error
    rw [if_pos hi]
    congr 1
    split
    · exact absurd rfl h1
    · exact absurd rfl h16
    · rfl
  · intro hi
    simp [handle_libc_error, not_lt.mpr hi]

/-- C4 witness: concrete evaluations of the error classification. -/
theorem handle_libc_error_classification_witness :
    handle_libc_error (-1) 1 = Except.error HCISocketError.PermissionDenied ∧
    handle_libc_error (-1) 16 = Except.error HCISocketError.Busy ∧
    handle_libc_error (-1) 13 = Except.error (HCISocketError.Other 13) ∧
    handle_libc_error 7 13 = Except.ok 7 :=
  ⟨(handle_libc_error_classification (-1) 1).1 (by decide) rfl,
   (handle_libc_error_classification (-1) 16).2.1 (by decide) rfl,
   (handle_libc_error_classification (-1) 13).2.2.1 (by decide)
     (by decide) (by decide),
   (handle_libc_error_classification 7 13).2.2.2 (by decide)⟩

/-- C5: the 14-byte filter of `HCISocket::set_filter` has bytes 0..4 equal
to the little-endian packet-type mask `(1 << Command) | (1 << Event)`
(= 0x12), bytes 4..8 equal to the little-endian event-code mask
`(1 << CommandComplete) | (1 << CommandStatus)` (= 0x05), and bytes 8..14
all zero. -/
theorem set_filter_bytes_layout :
    set_filter_bytes.length = 14 ∧
    set_filter_bytes.take 4 =
      u32_to_bytes_le
        ((1 <<< packetTypeCommandTag) ||| (1 <<< packetTypeEventTag)) ∧
    set_filter_bytes.take 4 = [0x12, 0, 0, 0] ∧
    (set_filter_bytes.drop 4).take 4 =
      u32_to_bytes_le
        ((1 <<< eventCodeCommandCompleteTag) |||
          (1 <<< eventCodeCommandStatusTag)) ∧
    (set_filter_bytes.drop 4).take 4 = [0x05, 0, 0, 0] ∧
    set_filter_bytes.drop 8 = List.replicate 6 0 := by
  refine ⟨rfl, rfl, rfl, rfl, rfl, rfl⟩

set_option linter.unusedVariables false in
/-- C7: the fallible `u16 → AdvertisingInterval` conversion succeeds with
the value kept verbatim exactly on `[0x0020, 0x4000]`, fails with
`ConversionError` (here: `none`) outside, and `DEFAULT` is `0x0800`. -/
theorem advertising_interval_try_from_range (v : Nat) (hv : v < 65536) :
    (AdvertisingInterval.MIN_U16 ≤ v ∧ v ≤ AdvertisingInterval.MAX_U16 →
      AdvertisingInterval.try_from v = some ⟨v⟩) ∧
    (v < AdvertisingInterval.MIN_U16 ∨ AdvertisingInterval.MAX_U16 < v →
      AdvertisingInterval.try_from v = none) ∧
    AdvertisingInterval.DEFAULT.val = 0x0800 := by
  refine ⟨?_, ?_, rfl⟩
  · intro hrange
    unfold AdvertisingInterval.try_from
    rw [if_pos ⟨hrange.2, hrange.1⟩]
  · intro hout
    unfold AdvertisingInterval.try_from
    rw [if_neg]
    intro hcontra
    rcases hout with hlo | hhi
    · exact absurd hcontra.2 (by omega)
    · exact absurd hcontra.1 (by omega)

/-- C7 witness: concrete in-range and out-of-range conversions. -/
theorem advertising_interval_try_from_range_witness :
    AdvertisingInterval.try_from 0x0800 = some ⟨0x0800⟩ ∧
    AdvertisingInterval.try_from 0x001F = none ∧
    AdvertisingInterval.try_from 0x4001 = none :=
  ⟨(advertising_interval_try_from_range 0x0800 (by decide)).1
     ⟨by decide, by decide⟩,
   (advertising_interval_try_from_range 0x001F (by decide)).2.1
     (Or.inl (by decide)),
   (advertising_interval_try_from_range 0x4001 (by decide)).2.1
     (Or.inr (by decide))⟩

set_option maxRecDepth 4096 in
/-- For byte values, masking with `0xC0` and shifting right by 6 extracts
the two most-significant bits. -/
theorem land_c0_shift6 (b : Nat) (h : b < 256) :
    Nat.land b 0xC0 >>> 6 = b / 64 := by
  revert h
  revert b
  decide

/-- C6: `address_type()` is `NonResolvablePrivate`, `ResolvablePrivateAddress`,
`RFU`, `StaticDevice` exactly when the top two bits of the last byte are
`0b00`, `0b01`, `0b10`, `0b11` respectively, and `private_address_parts()`
is `Some(hash, prand)` with the 24-bit hash from the low three bytes and
the 24-bit prand from the high three bytes exactly in the
`ResolvablePrivateAddress` case, `None` otherwise. -/
theorem address_type_classification (b0 b1 b2 b3 b4 b5 : Nat)
    (h : b5 < 256) :
    ((BTAddress.mk [b0, b1, b2, b3, b4, b5]).address_type =
      AddressType.NonResolvablePrivate ↔ b5 / 64 = 0) ∧
    ((BTAddress.mk [b0, b1, b2, b3, b4, b5]).address_type =
      AddressType.ResolvablePrivateAddress ↔ b5 / 64 = 1) ∧
    ((BTAddress.mk [b0, b1, b2, b3, b4, b5]).address_type =
      AddressType.RFU ↔ b5 / 64 = 2) ∧
    ((BTAddress.mk [b0, b1, b2, b3, b4, b5]).address_type =
      AddressType.StaticDevice ↔ b5 / 64 = 3) ∧
    (b5 / 64 = 1 →
      (BTAddress.mk [b0, b1, b2, b3, b4, b5]).private_address_parts =
        some (b0 + 256 * b1 + 65536 * b2, b3 + 256 * b4 + 65536 * b5)) ∧
    (b5 / 64 ≠ 1 →
      (BTAddress.mk [b0, b1, b2, b3, b4, b5]).private_address_parts =
        none) := by
  have hat : (BTAddress.mk [b0, b1, b2, b3, b4, b5]).address_type =
      match b5 / 64 with
      | 0 => AddressType.NonResolvablePrivate
      | 1 => AddressType.ResolvablePrivateAddress
      | 3 => AddressType.StaticDevice
      | _ => AddressType.RFU := by
    unfold BTAddress.address_type
    rw [show (BTAddress.mk [b0, b1, b2, b3, b4, b5]).bytes.getD 5 0 = b5
        from rfl]
    rw [land_c0_shift6 b5 h]
  have h4 : b5 / 64 = 0 ∨ b5 / 64 = 1 ∨ b5 / 64 = 2 ∨ b5 / 64 = 3 := by
    omega
  unfold BTAddress.private_address_parts
  rcases h4 with hc | hc | hc | hc <;>
    rw [hat, hc] <;>
    refine ⟨by simp, by simp, by simp, by simp, ?_, ?_⟩ <;>
    intro hx <;>
    first
      | exact absurd hc hx
      | exact absurd hx (by omega)
      | simp [u32_from_le_bytes]

/-- C6 witness: a resolvable private address (last byte `0x41`, top bits
`0b01`) yields its hash and prand parts. -/
theorem address_type_classification_witness :
    (BTAddress.mk [1, 2, 3, 4, 5, 0x41]).private_address_parts =
      some (1 + 256 * 2 + 65536 * 3, 4 + 256 * 5 + 65536 * 0x41) :=
  (address_type_classification 1 2 3 4 5 0x41 (by decide)).2.2.2.2.1
    (by decide)

/-- C8: round-trip and width of the wire primitives: `pack_into` succeeds
exactly on 6-byte buffers, its output is the 6 address bytes, and
`unpack_from` recovers the address; `CompanyID::to_bytes_le` produces
exactly 2 bytes and `from_bytes_le` recovers the identifier. -/
theorem wire_primitive_roundtrip (a : BTAddress) (buf : List Nat)
    (c : CompanyID) (ha : a.bytes.length = 6) (hc : c.id < 65536) :
    (buf.length = 6 →
      a.pack_into buf = Except.ok a.bytes ∧
      BTAddress.unpack_from a.bytes = Except.ok a) ∧
    (buf.length ≠ 6 →
      a.pack_into buf = Except.error (PackError.BadLength 6 buf.length)) ∧
    (∀ out, a.pack_into buf = Except.ok out → out.length = 6) ∧
    CompanyID.from_bytes_le c.to_bytes_le = some c ∧
    c.to_bytes_le.length = 2 := by
  refine ⟨?_, ?_, ?_, ?_, rfl⟩
  · intro hbuf
    constructor
    · unfold BTAddress.pack_into PackError.expect_length
      rw [if_pos hbuf]
    · unfold BTAddress.unpack_from PackError.expect_length
      rw [if_pos ha]
  · intro hbuf
    unfold BTAddress.pack_into PackError.expect_length
    rw [if_neg hbuf]
  · intro out hout
    unfold BTAddress.pack_into PackError.expect_length at hout
    by_cases hbuf : buf.length = 6
    · rw [if_pos hbuf] at hout
      cases hout
      exact ha
    · rw [if_neg hbuf] at hout
      cases hout
  · unfold CompanyID.from_bytes_le CompanyID.to_bytes_le u16_to_bytes_le
      u16_from_bytes_le
    have : c.id % 256 + 256 * (c.id / 256 % 256) = c.id := by omega
    simp only [this]

/-- C8 witness: round-trip at a concrete address, buffer, and company
identifier. -/
theorem wire_primitive_roundtrip_witness :
    (BTAddress.mk [1, 2, 3, 4, 5, 6]).pack_into [0, 0, 0, 0, 0, 0] =
      Except.ok [1, 2, 3, 4, 5, 6] ∧
    BTAddress.unpack_from [1, 2, 3, 4, 5, 6] =
      Except.ok (BTAddress.mk [1, 2, 3, 4, 5, 6]) ∧
    CompanyID.from_bytes_le (CompanyID.mk 0x0102).to_bytes_le =
      some (CompanyID.mk 0x0102) :=
  ⟨((wire_primitive_roundtrip (BTAddress.mk [1, 2, 3, 4, 5, 6])
      [0, 0, 0, 0, 0, 0] (CompanyID.mk 0x0102) (by decide) (by decide)).1
      (by decide)).1,
   ((wire_primitive_roundtrip (BTAddress.mk [1, 2, 3, 4, 5, 6])
      [0, 0, 0, 0, 0, 0] (CompanyID.mk 0x0102) (by decide) (by decide)).1
      (by decide)).2,
   (wire_primitive_roundtrip (BTAddress.mk [1, 2, 3, 4, 5, 6])
      [0, 0, 0, 0, 0, 0] (CompanyID.mk 0x0102) (by decide)
      (by decide)).2.2.2.1⟩

/-- If the octet-accumulation loop succeeds, the pieces it consumed bring
the output to exactly 6 octets and every piece parses as a hex `u8`. -/
theorem btAddrFromStrLoop_some (l : List (List Char)) :
    ∀ out r, btAddrFromStrLoop l out = some r →
      out.length + l.length = 6 ∧
        ∀ p ∈ l, (u8FromStrRadix16 p).isSome := by
  induction l with
  | nil =>
    intro out r h
    unfold btAddrFromStrLoop at h
    split at h
    · simp_all
    · cases h
  | cons p rest ih =>
    intro out r h
    unfold btAddrFromStrLoop at h
    split at h
    · cases h
    · split at h
      · cases h
      · rename_i b hb
        obtain ⟨hlen, hall⟩ := ih (out ++ [b]) r h
        refine ⟨?_, ?_⟩
        · simp at hlen ⊢
          omega
        · intro q hq
          rcases List.mem_cons.mp hq with hq | hq
          · subst hq
            simp [hb]
          · exact hall q hq

/-- If exactly 6 octets remain to be produced and every piece parses as a
hex `u8`, the octet-accumulation loop succeeds. -/
theorem btAddrFromStrLoop_isSome (l : List (List Char)) :
    ∀ out, out.length + l.length = 6 →
      (∀ p ∈ l, (u8FromStrRadix16 p).isSome) →
      (btAddrFromStrLoop l out).isSome := by
  induction l with
  | nil =>
    intro out hlen _
    unfold btAddrFromStrLoop
    rw [if_pos (by simp only [List.length_nil] at hlen; omega :
      out.length = 6)]
    rfl
  | cons p rest ih =>
    intro out hlen hall
    unfold btAddrFromStrLoop
    have hne : ¬out.length = 6 := by
      simp only [List.length_cons] at hlen
      omega
    rw [if_neg hne]
    have hp := hall p (List.mem_cons_self p rest)
    cases hps : u8FromStrRadix16 p with
    | none =>
      rw [hps] at hp
      simp at hp
    | some b =>
      exact ih (out ++ [b])
        (by simp at hlen ⊢; omega)
        (fun q hq => hall q (List.mem_cons_of_mem p hq))

/-- C9: the two delimiter styles both parse to
`[0x00, 0x11, 0x22, 0x33, 0x44, 0x55]`; 5 or 7 delimited octets fail; a
non-hex octet fails; in general parsing succeeds if and only if the
split yields exactly 6 pieces each accepted by `u8::from_str_radix(_, 16)`. -/
theorem btaddress_from_str_spec (s : List Char) :
    BTAddress.from_str "00:11:22:33:44:55".data =
      some ⟨[0x00, 0x11, 0x22, 0x33, 0x44, 0x55]⟩ ∧
    BTAddress.from_str "00-11-22-33-44-55".data =
      some ⟨[0x00, 0x11, 0x22, 0x33, 0x44, 0x55]⟩ ∧
    ((splitByPred btAddrDelim s []).length = 5 →
      BTAddress.from_str s = none) ∧
    ((splitByPred btAddrDelim s []).length = 7 →
      BTAddress.from_str s = none) ∧
    ((∃ p ∈ splitByPred btAddrDelim s [], u8FromStrRadix16 p = none) →
      BTAddress.from_str s = none) ∧
    ((BTAddress.from_str s).isSome ↔
      (splitByPred btAddrDelim s []).length = 6 ∧
        ∀ p ∈ splitByPred btAddrDelim s [],
          (u8FromStrRadix16 p).isSome) := by
  have hiff : (BTAddress.from_str s).isSome ↔
      (splitByPred btAddrDelim s []).length = 6 ∧
        ∀ p ∈ splitByPred btAddrDelim s [],
          (u8FromStrRadix16 p).isSome := by
    constructor
    · intro hs
      unfold BTAddress.from_str at hs
      cases hfs : btAddrFromStrLoop (splitByPred btAddrDelim s []) [] with
      | none =>
        rw [hfs] at hs
        simp at hs
      | some r =>
        have := btAddrFromStrLoop_some (splitByPred btAddrDelim s []) [] r hfs
        simpa using this
    · intro hsix
      have hsome := btAddrFromStrLoop_isSome (splitByPred btAddrDelim s [])
        [] (by simpa using hsix.1) hsix.2
      unfold BTAddress.from_str
      cases hfs : btAddrFromStrLoop (splitByPred btAddrDelim s []) [] with
      | none =>
        rw [hfs] at hsome
        simp at hsome
      | some r => rfl
  refine ⟨by decide, by decide, ?_, ?_, ?_, hiff⟩
  · intro h5
    cases hfs : BTAddress.from_str s with
    | none => rfl
    | some a =>
      have h6 := (hiff.mp (by rw [hfs]; rfl)).1
      omega
  · intro h7
    cases hfs : BTAddress.from_str s with
    | none => rfl
    | some a =>
      have h6 := (hiff.mp (by rw [hfs]; rfl)).1
      omega
  · intro hbad
    obtain ⟨p, hp, hnone⟩ := hbad
    cases hfs : BTAddress.from_str s with
    | none => rfl
    | some a =>
      have hall := (hiff.mp (by rw [hfs]; rfl)).2
      have := hall p hp
      rw [hnone] at this
      simp at this

/-- C9 witness: a 5-octet string, a 7-octet string, and a string with a
non-hex octet all fail to parse. -/
theorem btaddress_from_str_spec_witness :
    BTAddress.from_str "00:11:22:33:44".data = none ∧
    BTAddress.from_str "00:11:22:33:44:55:66".data = none ∧
    BTAddress.from_str "00:11:2g:33:44:55".data = none :=
  ⟨(btaddress_from_str_spec "00:11:22:33:44".data).2.2.1 (by decide),
   (btaddress_from_str_spec "00:11:22:33:44:55:66".data).2.2.2.1
     (by decide),
   (btaddress_from_str_spec "00:11:2g:33:44:55".data).2.2.2.2.1
     ⟨"2g".data, by decide, by decide⟩⟩

/-- C10 counterexample: at `milli = 21` (well below 4096) the code returns
`Some(33)`, yet 33 interval units is not exactly `21 * 1.6 = 33.6` units
(in tenths of a unit: `10 * 33 = 330 ≠ 336 = 16 * 21`): the truncating
division loses the fractional part. -/
theorem from_milliseconds_not_exact_at_21 :
    21 ≤ 4095 ∧
    AdvertisingInterval.from_milliseconds 21 =
      some ⟨33⟩ ∧
    10 * 33 ≠ 16 * 21 := by
  refine ⟨by decide, rfl, by decide⟩

/-- C10 (amended): `from_milliseconds(milli)` computes its candidate as
`milli * 16 / 10` in wrapping 16-bit arithmetic before the range-checked
conversion; for `milli <= 4095` the result, when `Some`, is exactly
`milli * 16 / 10` rounded down (not exactly `milli * 1.6` unless the
division is exact); for `milli >= 4096` the product wraps and the
returned value, when `Some`, differs from the unwrapped
`milli * 16 / 10`; `TryFrom<Duration>` inherits this behaviour. -/
theorem from_milliseconds_wrapping (milli : Nat) (hm : milli < 65536) :
    AdvertisingInterval.from_milliseconds milli =
      AdvertisingInterval.try_from (milli * 16 % 65536 / 10) ∧
    (milli ≤ 4095 →
      ∀ v, AdvertisingInterval.from_milliseconds milli = some v →
        v.val = milli * 16 / 10) ∧
    (4096 ≤ milli →
      milli * 16 % 65536 ≠ milli * 16 ∧
      ∀ v, AdvertisingInterval.from_milliseconds milli = some v →
        v.val ≠ milli * 16 / 10) ∧
    AdvertisingInterval.try_from_duration_millis milli =
      AdvertisingInterval.from_milliseconds milli := by
  refine ⟨rfl, ?_, ?_, ?_⟩
  · intro hsmall v hv
    unfold AdvertisingInterval.from_milliseconds
      AdvertisingInterval.try_from at hv
    split at hv
    · cases hv
      have : milli * 16 % 65536 = milli * 16 := Nat.mod_eq_of_lt (by omega)
      rw [this]
    · cases hv
  · intro hbig
    refine ⟨by omega, ?_⟩
    intro v hv
    unfold AdvertisingInterval.from_milliseconds
      AdvertisingInterval.try_from at hv
    split at hv
    · cases hv
      rename_i hrange
      unfold AdvertisingInterval.MAX_U16 AdvertisingInterval.MIN_U16
        at hrange
      show milli * 16 % 65536 / 10 ≠ milli * 16 / 10
      omega
    · cases hv
  · unfold AdvertisingInterval.try_from_duration_millis
    rw [if_pos (by omega : milli ≤ 65535)]

/-- C10 witness: concrete instantiations of the amended statement, below
and above the wrap threshold. -/
theorem from_milliseconds_wrapping_witness :
    AdvertisingInterval.from_milliseconds 100 =
      AdvertisingInterval.try_from (100 * 16 % 65536 / 10) ∧
    (∀ v, AdvertisingInterval.from_milliseconds 100 = some v →
      v.val = 100 * 16 / 10) ∧
    (5000 * 16 % 65536 ≠ 5000 * 16) ∧
    AdvertisingInterval.try_from_duration_millis 5000 =
      AdvertisingInterval.from_milliseconds 5000 :=
  ⟨(from_milliseconds_wrapping 100 (by decide)).1,
   (from_milliseconds_wrapping 100 (by decide)).2.1 (by decide),
   ((from_milliseconds_wrapping 5000 (by decide)).2.2.1 (by decide)).1,
   (from_milliseconds_wrapping 5000 (by decide)).2.2.2⟩

end Btle
